import Mathlib

/-!
Verification development for simple-container-monitor
(src/SimpleContainerMonitor.ts, a single-file TypeScript Docker → Notion
stats publisher).

The program is embedded shallowly:
* JavaScript numbers are modelled exactly as rationals extended with the
  non-finite values NaN, Infinity and -Infinity (`JsNum`).  Rounding of
  inexact IEEE-754 doubles is not modelled; every quantity the program
  manipulates in the claims under study is exact.
* Network effects are modelled by passing the environment's responses as
  explicit arguments (a stats oracle for the Docker socket, scripted HTTP
  responses for the Notion API) and by returning the request traces the
  code would issue.
* `Option`/`Except` model promise rejection: `none`/`.error` means the
  corresponding async function rejects.
-/

set_option maxHeartbeats 1000000

/-- Model of a JavaScript number: an exact rational, or one of the
non-finite values NaN, Infinity, -Infinity that division by zero and
arithmetic on them produce. -/
inductive JsNum where
  | finite (q : ℚ)
  | nan
  | inf
  | neginf
deriving DecidableEq

/-- JavaScript subtraction on the number model. -/
def JsNum.sub : JsNum → JsNum → JsNum
  | .nan, _ => .nan
  | .finite a, .finite b => .finite (a - b)
  | .finite _, .nan => .nan
  | .finite _, .inf => .neginf
  | .finite _, .neginf => .inf
  | .inf, .nan => .nan
  | .inf, .finite _ => .inf
  | .inf, .inf => .nan
  | .inf, .neginf => .inf
  | .neginf, .nan => .nan
  | .neginf, .finite _ => .neginf
  | .neginf, .inf => .neginf
  | .neginf, .neginf => .nan

/-- JavaScript multiplication on the number model (Infinity * 0 is NaN). -/
def JsNum.mul : JsNum → JsNum → JsNum
  | .nan, _ => .nan
  | .finite a, .finite b => .finite (a * b)
  | .finite _, .nan => .nan
  | .finite a, .inf => if a = 0 then .nan else if 0 < a then .inf else .neginf
  | .finite a, .neginf => if a = 0 then .nan else if 0 < a then .neginf else .inf
  | .inf, .nan => .nan
  | .inf, .finite b => if b = 0 then .nan else if 0 < b then .inf else .neginf
  | .inf, .inf => .inf
  | .inf, .neginf => .neginf
  | .neginf, .nan => .nan
  | .neginf, .finite b => if b = 0 then .nan else if 0 < b then .neginf else .inf
  | .neginf, .inf => .neginf
  | .neginf, .neginf => .inf

/-- JavaScript division on the number model: a finite value divided by zero
yields NaN (for 0/0) or a signed infinity; the sign of zero is not
modelled (the divisor 0 is treated as +0). -/
def JsNum.div : JsNum → JsNum → JsNum
  | .nan, _ => .nan
  | .finite a, .finite b =>
      if b = 0 then
        if a = 0 then .nan else if 0 < a then .inf else .neginf
      else .finite (a / b)
  | .finite _, .nan => .nan
  | .finite _, .inf => .finite 0
  | .finite _, .neginf => .finite 0
  | .inf, .nan => .nan
  | .inf, .finite b => if 0 ≤ b then .inf else .neginf
  | .inf, .inf => .nan
  | .inf, .neginf => .nan
  | .neginf, .nan => .nan
  | .neginf, .finite b => if 0 ≤ b then .neginf else .inf
  | .neginf, .inf => .nan
  | .neginf, .neginf => .nan

/-- Rounding to two decimal places as Number.prototype.toFixed(2) performs
it on an exactly representable value: nearest hundredth, ties toward the
larger value. -/
def round2 (q : ℚ) : ℚ := (⌊q * 100 + 1 / 2⌋ : ℚ) / 100

/-- Number(x.toFixed(2)): a finite value is rounded to two decimals; NaN
and the infinities survive the string round-trip unchanged
(Number("NaN") is NaN, Number("Infinity") is Infinity). -/
def JsNum.toFixed2 : JsNum → JsNum
  | .finite q => .finite (round2 q)
  | .nan => .nan
  | .inf => .inf
  | .neginf => .neginf

/-- Number.isFinite on the model. -/
def JsNum.isFinite : JsNum → Bool
  | .finite _ => true
  | _ => false

/-- Decimal rendering of a finite value that is a whole number of
hundredths, as JavaScript Number.prototype.toString produces it (no
trailing zeros, no decimal point for integers). -/
def ratToString2 (q : ℚ) : String :=
  let m : ℤ := ⌊q * 100⌋
  let sign := if m < 0 then "-" else ""
  let a := m.natAbs
  let ip := a / 100
  let fr := a % 100
  if fr = 0 then sign ++ toString ip
  else if fr % 10 = 0 then sign ++ toString ip ++ "." ++ toString (fr / 10)
  else sign ++ toString ip ++ "." ++ (if fr < 10 then "0" else "") ++ toString fr

/-- JavaScript Number.prototype.toString on the model. -/
def JsNum.toDisplayString : JsNum → String
  | .finite q => ratToString2 q
  | .nan => "NaN"
  | .inf => "Infinity"
  | .neginf => "-Infinity"

/-! ## Docker metrics collector (class DockerMonitor) -/

/-- stats.cpu_stats.cpu_usage / stats.precpu_stats.cpu_usage. -/
structure CpuUsage where
  total_usage : JsNum
deriving DecidableEq

/-- stats.cpu_stats. -/
structure CpuStats where
  cpu_usage : CpuUsage
  system_cpu_usage : JsNum
  online_cpus : JsNum
deriving DecidableEq

/-- stats.precpu_stats (the previous sample embedded in the snapshot). -/
structure PrecpuStats where
  cpu_usage : CpuUsage
  system_cpu_usage : JsNum
deriving DecidableEq

/-- stats.memory_stats. -/
structure MemoryStats where
  usage : JsNum
deriving DecidableEq

/-- One non-streaming stats snapshot from GET /containers/id/stats. -/
structure StatsSnapshot where
  cpu_stats : CpuStats
  precpu_stats : PrecpuStats
  memory_stats : MemoryStats
deriving DecidableEq

/-- interface ContainerStats of the source. -/
structure ContainerStats where
  name : String
  cpuUsage : JsNum
  memoryUsage : JsNum
deriving DecidableEq

/-- The arithmetic body of DockerMonitor.getContainerStats: cpuDelta,
systemDelta, cpuUsage = (cpuDelta / systemDelta) * online_cpus * 100,
memoryUsage = usage / (1024*1024), both passed through
Number(x.toFixed(2)). -/
def computeContainerStats (containerId : String) (stats : StatsSnapshot) : ContainerStats :=
  let cpuDelta := stats.cpu_stats.cpu_usage.total_usage.sub stats.precpu_stats.cpu_usage.total_usage
  let systemDelta := stats.cpu_stats.system_cpu_usage.sub stats.precpu_stats.system_cpu_usage
  let cpuUsage := ((cpuDelta.div systemDelta).mul stats.cpu_stats.online_cpus).mul (.finite 100)
  let memoryUsage := stats.memory_stats.usage.div (.finite (1024 * 1024))
  { name := containerId, cpuUsage := cpuUsage.toFixed2, memoryUsage := memoryUsage.toFixed2 }

/-- DockerMonitor.getContainerStats: the stats fetch is modelled by an
oracle from container id to an optional snapshot; `none` models a fetch
or parse failure, which the source catches and turns into null. -/
def getContainerStats (fetchStats : String → Option StatsSnapshot) (containerId : String) :
    Option ContainerStats :=
  (fetchStats containerId).map (computeContainerStats containerId)

/-- One element of the Docker /containers/json listing response
(interface DockerContainer of the source). -/
structure DockerContainer where
  Id : String
  Names : List String
deriving DecidableEq

/-- name.replace of the source with the anchored pattern: strips one
leading '/' if present. -/
def stripLeadingSlash (s : String) : String :=
  match s.data with
  | '/' :: rest => String.mk rest
  | _ => s

/-- Intermediate id/name pair produced by DockerMonitor.getContainers. -/
structure RawContainerRef where
  id : String
  name : String
deriving DecidableEq

/-- Mapping one listing element: container.Names[0].replace(...).  When
Names is empty, Names[0] is undefined and .replace throws a TypeError,
so the whole listing call rejects; `none` models that throw. -/
def containerRef (c : DockerContainer) : Option RawContainerRef :=
  match c.Names with
  | [] => none
  | n :: _ => some { id := c.Id, name := stripLeadingSlash n }

/-- DockerMonitor.getContainers: containers.map over the listing; an
exception on any element rejects the whole call. -/
def getContainers : List DockerContainer → Option (List RawContainerRef)
  | [] => some []
  | c :: rest =>
      match containerRef c, getContainers rest with
      | some r, some rs => some (r :: rs)
      | _, _ => none

/-- DockerMonitor.getAllContainerStats: fetch stats for every listed
container (the concurrent Promise.all join is positional, so the result
order is the listing order), replace each stat's name by the display
name, and drop the nulls of failed containers. -/
def getAllContainerStats (fetchStats : String → Option StatsSnapshot)
    (listing : List DockerContainer) : Option (List ContainerStats) :=
  match getContainers listing with
  | none => none
  | some refs =>
      some ((refs.map (fun r =>
        (getContainerStats fetchStats r.id).map (fun s => { s with name := r.name }))).filterMap id)

/-! ## String primitives used by the Notion-side code -/

/-- JavaScript String.prototype.split with a single-character separator,
on the underlying character list: "".split(c) is [""], and separators at
the ends produce empty segments. -/
def splitCharL (c : Char) : List Char → List (List Char)
  | [] => [[]]
  | x :: xs =>
      match splitCharL c xs with
      | [] => [[x]]
      | g :: gs => if x = c then [] :: g :: gs else (x :: g) :: gs

/-- First segment of s.split('.'): everything before the first dot, the
whole string when there is no dot. -/
def beforeFirstDot (s : String) : String :=
  match splitCharL '.' s.data with
  | [] => s
  | g :: _ => String.mk g

/-- Helper for substring search: list-level startsWith. -/
def startsWithL : List Char → List Char → Bool
  | [], _ => true
  | _ :: _, [] => false
  | a :: as, b :: bs => (a == b) && startsWithL as bs

/-- JavaScript String.prototype.includes, on character lists. -/
def containsSubL (needle : List Char) : List Char → Bool
  | [] => startsWithL needle []
  | x :: xs => startsWithL needle (x :: xs) || containsSubL needle xs

/-- JavaScript String.prototype.includes. -/
def containsSub (needle hay : String) : Bool := containsSubL needle.data hay.data

/-! ## Notion block model and rendering (class NotionPageUpdater) -/

/-- The text.content object of a rich-text item. -/
structure TextSpan where
  content : String
deriving DecidableEq

/-- The annotations the source ever writes on a rich-text item. -/
structure Annotations where
  bold : Option Bool
  italic : Option Bool
  color : Option String
deriving DecidableEq

/-- One rich-text item as produced by the source; annotations are absent
on table cells and the Updated line. -/
structure RichText where
  text : TextSpan
  annotations : Option Annotations
deriving DecidableEq

/-- The block shapes the source produces or inspects. -/
inductive NotionBlock where
  | paragraph (rich_text : List RichText)
  | quote (rich_text : List RichText) (children : List NotionBlock)
  | table (table_width : ℕ) (has_column_header : Bool) (has_row_header : Bool)
      (children : List NotionBlock)
  | table_row (cells : List (List RichText))

/-- The header row of formatContainerStatsAsTable. -/
def headerRow : NotionBlock :=
  .table_row [[⟨⟨"Container"⟩, none⟩], [⟨⟨"CPU (%)"⟩, none⟩], [⟨⟨"RAM (MB)"⟩, none⟩]]

/-- One data row of formatContainerStatsAsTable: name, cpuUsage.toString(),
memoryUsage.toString(). -/
def statRow (stat : ContainerStats) : NotionBlock :=
  .table_row [[⟨⟨stat.name⟩, none⟩],
    [⟨⟨stat.cpuUsage.toDisplayString⟩, none⟩],
    [⟨⟨stat.memoryUsage.toDisplayString⟩, none⟩]]

/-- NotionPageUpdater.formatContainerStatsAsTable. -/
def formatContainerStatsAsTable (stats : List ContainerStats) : NotionBlock :=
  .table 3 true false (headerRow :: stats.map statRow)

/-- The fixed sentinel string embedded in every block the monitor creates. -/
def markerText : String := "Managed by simple-container-monitor"

/-- Timestamp formatting of updatePage:
new Date().toISOString().split('.')[0] + 'Z'. -/
def formatTimestamp (iso : String) : String := beforeFirstDot iso ++ "Z"

/-- The quote block composed by updatePage: bold title, Updated line,
stats table, and the de-emphasized marker paragraph. -/
def buildQuoteBlock (stats : List ContainerStats) (iso : String) : NotionBlock :=
  .quote [⟨⟨"Container Stats"⟩, some ⟨some true, none, none⟩⟩]
    [ .paragraph [⟨⟨"Updated: " ++ formatTimestamp iso⟩, none⟩],
      formatContainerStatsAsTable stats,
      .paragraph [⟨⟨markerText⟩, some ⟨some false, some true, some "gray"⟩⟩] ]

/-- A request issued to the Notion API, as recorded in a trace. -/
inductive NotionReq where
  | get (path : String)
  | delete (blockId : String)
  | appendChildren (parentId : String) (children : List NotionBlock)

/-- The delete requests of a trace, in order. -/
def deleteTargets (reqs : List NotionReq) : List String :=
  reqs.filterMap (fun r => match r with | .delete b => some b | _ => none)

/-! ## updatePage state machine -/

/-- The Synchronizer's only persistent state: this.lastBlockId. -/
structure SyncState where
  lastBlockId : Option String
deriving DecidableEq

/-- Environment of one updatePage call: the stats argument, the current
toISOString() value, whether the delete of the previous block succeeds
(its outcome is swallowed either way), and the append response —
`.error` models a rejected append request, `.ok none` a response without
a results array, `.ok (some ids)` a response whose results carry these
block ids. -/
structure CycleEnv where
  stats : List ContainerStats
  iso : String
  deleteSucceeds : Bool
  appendResult : Except String (Option (List String))

/-- NotionPageUpdater.updatePage: returns the Notion request trace, the
new state, and whether the call resolves (false models a rejected append
propagating out of updatePage).  The previous block, when one is
remembered, is deleted first and the handle cleared regardless of the
delete's outcome; after a successful append the id of the last element
of results becomes the new handle. -/
def updatePage (pageId : String) (st : SyncState) (env : CycleEnv) :
    List NotionReq × SyncState × Bool :=
  let deleteReqs : List NotionReq :=
    match st.lastBlockId with
    | some b => [.delete b]
    | none => []
  let appendReq : NotionReq := .appendChildren pageId [buildQuoteBlock env.stats env.iso]
  match env.appendResult with
  | .error _ => (deleteReqs ++ [appendReq], ⟨none⟩, false)
  | .ok results => (deleteReqs ++ [appendReq], ⟨results.bind List.getLast?⟩, true)

/-- Iterated updatePage calls from a given state, as the scheduler loop
performs them (a failed cycle is logged and the loop continues with the
state the failed call left behind). -/
def runSyncs (pageId : String) : SyncState → List CycleEnv → List (List NotionReq) × SyncState
  | st, [] => ([], st)
  | st, e :: es =>
      let r := updatePage pageId st e
      let rest := runSyncs pageId r.2.1 es
      (r.1 :: rest.1, rest.2)

/-- The block ids an append response returned in a cycle's environment. -/
def envAppendIds (e : CycleEnv) : List String :=
  match e.appendResult with
  | .ok (some ids) => ids
  | _ => []

/-- A default cycle environment (used only as the out-of-range default of
positional lookups). -/
def defaultCycleEnv : CycleEnv := ⟨[], "", true, .ok none⟩

/-! ## Startup cleanup (cleanupOldBlocksWithMarker) -/

/-- The text object of a rich-text item read back from the API; content
may be absent. -/
structure RawText where
  content : Option String
deriving DecidableEq

/-- A rich-text item read back from the API; text may be absent. -/
structure RawRichText where
  text : Option RawText
deriving DecidableEq

/-- A nested child block read back from the API.  `paragraph_rich_text`
flattens the guard chain child.paragraph && child.paragraph.rich_text of
the source: `none` when either object is absent. -/
structure ChildBlock where
  type : String
  paragraph_rich_text : Option (List RawRichText)
deriving DecidableEq

/-- A top-level child of the page as returned by the children listing;
`children` is what a follow-up children fetch on its id returns. -/
structure PageChild where
  id : String
  type : String
  has_children : Bool
  children : List ChildBlock
deriving DecidableEq

/-- The marker test on one rich-text item: rt.text && rt.text.content &&
rt.text.content.includes(marker).  An empty content string is falsy and
short-circuits to false. -/
def richTextHasMarker (rt : RawRichText) : Bool :=
  match rt.text with
  | none => false
  | some t =>
      match t.content with
      | none => false
      | some c => if c = "" then false else containsSub markerText c

/-- The per-child marker test of cleanupOldBlocksWithMarker. -/
def childHasMarker (c : ChildBlock) : Bool :=
  c.type == "paragraph" &&
    (match c.paragraph_rich_text with
     | some rts => rts.any richTextHasMarker
     | none => false)

/-- Whether a quote block's first 20 nested children contain the marker. -/
def quoteHasMarker (b : PageChild) : Bool :=
  (b.children.take 20).any childHasMarker

/-- The filter cleanupOldBlocksWithMarker applies to a listed child. -/
def cleanupShouldDelete (b : PageChild) : Bool :=
  (b.type == "quote" && b.has_children) && quoteHasMarker b

/-- The requests the cleanup loop body issues for one listed child: quote
children with nested children get a page-size-20 children fetch, then a
delete when some nested paragraph contains the marker; every other child
is skipped. -/
def cleanupBlockReqs (b : PageChild) : List NotionReq :=
  if b.type == "quote" && b.has_children then
    NotionReq.get ("/blocks/" ++ b.id ++ "/children?page_size=20") ::
      (if quoteHasMarker b then [NotionReq.delete b.id] else [])
  else []

/-- NotionPageUpdater.cleanupOldBlocksWithMarker as a request trace: the
page-size-100 children listing, then the loop body over each listed
child.  The page argument is the full child list of the document; the
API returns its first 100 elements, and the nested fetches return the
first 20 nested children. -/
def cleanupTrace (pageId : String) (page : List PageChild) : List NotionReq :=
  NotionReq.get ("/blocks/" ++ pageId ++ "/children?page_size=100") ::
    (page.take 100).flatMap cleanupBlockReqs

/-- The get requests of a trace, in order. -/
def getTargets (reqs : List NotionReq) : List String :=
  reqs.filterMap (fun r => match r with | .get p => some p | _ => none)

/-! ## Rate-limited request channel (makeNotionRequest, lines 70-81) -/

/-- MIN_INTERVAL of makeNotionRequest, in milliseconds. -/
def minIntervalMs : ℕ := 350

/-- The value of the shared lastNotionRequestTime variable as observed by
a submission at time s: the latest dispatch that happened strictly
before s, or the initial 0. -/
def lastDispatchBefore (hist : List ℕ) (s : ℕ) : ℕ :=
  (hist.filter (fun d => d < s)).foldr max 0

/-- The promise-chain rate limiter: each submission at time s computes
wait = max(0, lastNotionRequestTime + 350 - now) from the value of
lastNotionRequestTime it observes at submission time, chains a timer of
that length after the previous queue element (which resolves at time
qrt), and dispatches when the timer fires, overwriting
lastNotionRequestTime with the dispatch time.  Submission times must be
given in submission order. -/
def dispatchLoop : List ℕ → List ℕ → ℕ → List ℕ
  | [], _, _ => []
  | s :: rest, hist, qrt =>
      let last := lastDispatchBefore hist s
      let wait := (last + minIntervalMs) - s
      let start := max s qrt
      let d := start + wait
      d :: dispatchLoop rest (hist ++ [d]) d

/-- Dispatch times of a submission sequence against a fresh channel
(lastNotionRequestTime = 0, queue resolved). -/
def dispatchTimes (subs : List ℕ) : List ℕ := dispatchLoop subs [] 0

/-! ## 429 retry loop (makeNotionRequest, lines 100-117) -/

/-- One scripted HTTP response from the Notion API.  `retryAfter` is the
parsed Retry-After header (`none` models an absent or non-numeric
header); `body` is the response body, with `none` modelling a body on
which JSON.parse throws. -/
structure ApiResponse where
  status : ℕ
  retryAfter : Option ℕ
  body : Option String
deriving DecidableEq

/-- parseInt(res.headers['retry-after'], 10) || 1: an absent or
non-numeric header parses to NaN which is falsy, and a parsed 0 is also
falsy, so both fall back to 1 second. -/
def retryAfterSeconds (h : Option ℕ) : ℕ :=
  match h with
  | none => 1
  | some n => if n = 0 then 1 else n

/-- Outcome of one makeNotionRequest call. -/
inductive CallResult where
  | ok (body : String)
  | apiError (status : ℕ) (body : String)
  | parseError
deriving DecidableEq

/-- The response-handling loop of makeNotionRequest run against a script
of responses (response i answers the i-th issued request): JSON.parse
first (a throw rejects the call), then 429 → wait Retry-After seconds
and re-issue the identical request, then status ≥ 400 → reject with
status and body, else resolve.  Returns the outcome, the total
setTimeout wait in milliseconds, and the number of requests issued;
`none` means the script ran out while the loop was still retrying. -/
def processResponses : List ApiResponse → Option (CallResult × ℕ × ℕ)
  | [] => none
  | r :: rest =>
      match r.body with
      | none => some (.parseError, 0, 1)
      | some b =>
          if r.status = 429 then
            match processResponses rest with
            | none => none
            | some (res, w, n) =>
                some (res, retryAfterSeconds r.retryAfter * 1000 + w, n + 1)
          else if 400 ≤ r.status then some (.apiError r.status b, 0, 1)
          else some (.ok b, 0, 1)

/-! ## Startup configuration check (top-level check and constructor) -/

/-- JavaScript truthiness of an environment variable: absent and empty
string are falsy (the source reads process.env.X || '' / || null). -/
def envTruthy (v : Option String) : Bool :=
  match v with
  | none => false
  | some s => if s = "" then false else true

/-- How the process comes up. -/
inductive StartupOutcome where
  | exitNonZero (code : ℕ)
  | errorLoggedExitZero
  | monitoring
deriving DecidableEq

/-- Process startup: the top-level check covers only NOTION_TOKEN and
calls process.exit(1); a missing NOTION_PAGE_ID makes the
NotionPageUpdater constructor throw inside main, where the catch block
logs the error and main resolves, after which the event loop is empty
(no timer was scheduled) and the process exits with status 0. -/
def startup (token pageId : Option String) : StartupOutcome :=
  if envTruthy token = false then .exitNonZero 1
  else if envTruthy pageId = false then .errorLoggedExitZero
  else .monitoring

/-- The status the process exits with, `none` when it keeps running. -/
def startupExitCode : StartupOutcome → Option ℕ
  | .exitNonZero c => some c
  | .errorLoggedExitZero => some 0
  | .monitoring => none

/-- Whether any Notion request is attempted on this path: only the
monitoring path reaches cleanupOldBlocksWithMarker and updatePage. -/
def startupAttemptsNotionRequest : StartupOutcome → Bool
  | .monitoring => true
  | _ => false

/-- Whether the 60-second scheduling loop begins: only on the monitoring
path does main reach setInterval. -/
def startupBeginsScheduling : StartupOutcome → Bool
  | .monitoring => true
  | _ => false

/-- Whether an error is logged on this path (console.error in the
top-level check, or the catch block of main). -/
def startupLogsError : StartupOutcome → Bool
  | .exitNonZero _ => true
  | .errorLoggedExitZero => true
  | .monitoring => false

/-! ## Helper lemmas -/

theorem JsNum.toFixed2_isFinite (a : JsNum) : a.toFixed2.isFinite = a.isFinite := by
  cases a <;> rfl

theorem JsNum.mul_finite_isFinite_false (a : JsNum) (x : ℚ) (h : a.isFinite = false) :
    (a.mul (.finite x)).isFinite = false := by
  cases a with
  | finite q => simp [JsNum.isFinite] at h
  | nan => rfl
  | inf =>
      simp only [JsNum.mul]
      split_ifs <;> rfl
  | neginf =>
      simp only [JsNum.mul]
      split_ifs <;> rfl

theorem JsNum.finite_div_zero_isFinite_false (a : ℚ) :
    ((JsNum.finite a).div (.finite 0)).isFinite = false := by
  simp only [JsNum.div, if_pos rfl]
  split_ifs <;> rfl

/-! ## C6: CPU percent and memory formulas (DockerMonitor.getContainerStats) -/

/-- C6: for every stats snapshot with finite counters and a nonzero system
delta, getContainerStats computes cpuPercent as
((total - precpu total) / (system - precpu system)) * online_cpus * 100
rounded to two decimals, and memoryMB as usage / (1024*1024) rounded to
two decimals; in particular total=200, precpu total=100, system=1000,
precpu system=500, online_cpus=4 yield 80, and usage=104857600 bytes
yields 100. -/
theorem c6_cpu_memory_rounding (cid : String) (t pt s ps c u : ℚ) (hs : s - ps ≠ 0) :
    computeContainerStats cid
        ⟨⟨⟨.finite t⟩, .finite s, .finite c⟩, ⟨⟨.finite pt⟩, .finite ps⟩, ⟨.finite u⟩⟩ =
      { name := cid,
        cpuUsage := .finite (round2 ((t - pt) / (s - ps) * c * 100)),
        memoryUsage := .finite (round2 (u / (1024 * 1024))) } ∧
    computeContainerStats cid
        ⟨⟨⟨.finite 200⟩, .finite 1000, .finite 4⟩, ⟨⟨.finite 100⟩, .finite 500⟩,
          ⟨.finite 104857600⟩⟩ =
      { name := cid, cpuUsage := .finite 80, memoryUsage := .finite 100 } := by
  constructor
  · simp only [computeContainerStats, JsNum.sub, JsNum.div, JsNum.mul, JsNum.toFixed2]
    rw [if_neg hs, if_neg (by norm_num : ¬((1024 * 1024 : ℚ) = 0))]
  · simp only [computeContainerStats, JsNum.sub, JsNum.div, JsNum.mul, JsNum.toFixed2]
    norm_num [round2]

/-- Witness for C6 at the spec's concrete inputs. -/
theorem c6_witness :
    computeContainerStats "db"
        ⟨⟨⟨.finite 200⟩, .finite 1000, .finite 4⟩, ⟨⟨.finite 100⟩, .finite 500⟩,
          ⟨.finite 104857600⟩⟩ =
      { name := "db", cpuUsage := .finite 80, memoryUsage := .finite 100 } :=
  (c6_cpu_memory_rounding "db" 200 100 1000 500 4 104857600 (by norm_num)).2

/-! ## C9: zero system delta produces a non-finite, serialized CPU value -/

/-- C9: when a snapshot has system_cpu_usage equal to
precpu_stats.system_cpu_usage, getContainerStats neither fails nor omits
the container: it returns a stat whose cpuUsage is non-finite, and that
value is serialized into the rendered table as its display string. -/
theorem c9_zero_system_delta_included (cid : String) (t pt s c : ℚ) (m : JsNum)
    (fetchStats : String → Option StatsSnapshot)
    (hf : fetchStats cid =
      some ⟨⟨⟨.finite t⟩, .finite s, .finite c⟩, ⟨⟨.finite pt⟩, .finite s⟩, ⟨m⟩⟩) :
    ∃ st : ContainerStats,
      getContainerStats fetchStats cid = some st ∧
      st.cpuUsage.isFinite = false ∧
      formatContainerStatsAsTable [st] =
        .table 3 true false [headerRow,
          .table_row [[⟨⟨st.name⟩, none⟩],
            [⟨⟨st.cpuUsage.toDisplayString⟩, none⟩],
            [⟨⟨st.memoryUsage.toDisplayString⟩, none⟩]]] := by
  refine ⟨computeContainerStats cid
      ⟨⟨⟨.finite t⟩, .finite s, .finite c⟩, ⟨⟨.finite pt⟩, .finite s⟩, ⟨m⟩⟩, ?_, ?_, rfl⟩
  · simp [getContainerStats, hf]
  · simp only [computeContainerStats, JsNum.sub, sub_self, JsNum.toFixed2_isFinite]
    exact JsNum.mul_finite_isFinite_false _ 100
      (JsNum.mul_finite_isFinite_false _ c (JsNum.finite_div_zero_isFinite_false _))

/-- Witness for C9: a snapshot whose system counter did not advance. -/
theorem c9_witness :
    ∃ st : ContainerStats,
      getContainerStats
          (fun _ => some ⟨⟨⟨.finite 5⟩, .finite 7, .finite 4⟩, ⟨⟨.finite 3⟩, .finite 7⟩,
            ⟨.finite 0⟩⟩) "db" = some st ∧
      st.cpuUsage.isFinite = false ∧
      formatContainerStatsAsTable [st] =
        .table 3 true false [headerRow,
          .table_row [[⟨⟨st.name⟩, none⟩],
            [⟨⟨st.cpuUsage.toDisplayString⟩, none⟩],
            [⟨⟨st.memoryUsage.toDisplayString⟩, none⟩]]] :=
  c9_zero_system_delta_included "db" 5 3 7 4 (.finite 0)
    (fun _ => some ⟨⟨⟨.finite 5⟩, .finite 7, .finite 4⟩, ⟨⟨.finite 3⟩, .finite 7⟩,
      ⟨.finite 0⟩⟩) rfl

/-! ## C5: per-container omission in getAllContainerStats -/

theorem getContainers_of_nonempty_names (listing : List DockerContainer)
    (h : ∀ c ∈ listing, c.Names ≠ []) :
    getContainers listing =
      some (listing.map fun c =>
        { id := c.Id, name := stripLeadingSlash (c.Names.headD "") }) := by
  induction listing with
  | nil => rfl
  | cons c rest ih =>
      obtain ⟨n, ns, hn⟩ : ∃ n ns, c.Names = n :: ns := by
        cases hcn : c.Names with
        | nil => exact absurd hcn (h c (by simp))
        | cons a as => exact ⟨a, as, rfl⟩
      have hrest := ih (fun d hd => h d (List.mem_cons_of_mem _ hd))
      simp [getContainers, containerRef, hn, hrest]

/-- C5 (amended): provided every listed container has at least one declared
name, getAllContainerStats never fails as a whole: a per-container
stats-fetch failure omits only that container, the call resolves with
exactly the succeeding containers in listing order, and each stat
carries the first declared name with one leading slash stripped. -/
theorem c5_amended_per_container_omission
    (fetchStats : String → Option StatsSnapshot) (listing : List DockerContainer)
    (h : ∀ c ∈ listing, c.Names ≠ []) :
    getAllContainerStats fetchStats listing =
      some (listing.filterMap (fun cont =>
        (getContainerStats fetchStats cont.Id).map
          (fun s => { s with name := stripLeadingSlash (cont.Names.headD "") }))) := by
  rw [getAllContainerStats, getContainers_of_nonempty_names listing h]
  simp [List.filterMap_map, Function.comp_def]

/-- Counterexample to C5 as stated: a listing element with an empty Names
array makes the name-extraction step throw, so the whole collect call
rejects instead of resolving. -/
theorem c5_counterexample :
    getAllContainerStats (fun _ => none) [{ Id := "c1", Names := [] }] = none ∧
    ∀ l : List ContainerStats,
      getAllContainerStats (fun _ => none) [{ Id := "c1", Names := [] }] ≠ some l := by
  refine ⟨rfl, fun l hl => ?_⟩
  rw [show getAllContainerStats (fun _ => none) [{ Id := "c1", Names := [] }] = none from rfl]
    at hl
  exact Option.noConfusion hl

/-- Witness for C5 at the spec's scenario: one failing and one succeeding
container give a one-element result carrying the succeeding container's
display name. -/
theorem c5_witness :
    getAllContainerStats
        (fun i => if i = "a"
          then some ⟨⟨⟨.finite 200⟩, .finite 1000, .finite 4⟩, ⟨⟨.finite 100⟩, .finite 500⟩,
            ⟨.finite 104857600⟩⟩
          else none)
        [{ Id := "a", Names := ["/app"] }, { Id := "b", Names := ["/bad"] }] =
      some [{ name := "app", cpuUsage := .finite 80, memoryUsage := .finite 100 }] := by
  rw [c5_amended_per_container_omission
    (fun i => if i = "a"
      then some ⟨⟨⟨.finite 200⟩, .finite 1000, .finite 4⟩, ⟨⟨.finite 100⟩, .finite 500⟩,
        ⟨.finite 104857600⟩⟩
      else none)
    [{ Id := "a", Names := ["/app"] }, { Id := "b", Names := ["/bad"] }]
    (by intro c hc; simp at hc; rcases hc with rfl | rfl <;> simp)]
  simp only [List.filterMap_cons, List.filterMap_nil, getContainerStats]
  norm_num [computeContainerStats, JsNum.sub, JsNum.div, JsNum.mul, JsNum.toFixed2, round2,
    stripLeadingSlash]
  rfl

/-! ## C1: at most one live PendingBlockHandle -/

/-- C1: a sync call with a handle held from the previous call issues
exactly one delete for that handle's id followed by the append, behaves
identically whether or not the delete succeeds, and stores the id of
the newly created top-level block as the new handle; hence two
consecutive sync calls with handle-tracking intact produce exactly one
delete-then-append pair on the second call, deleting the block created
by the first. -/
theorem c1_single_live_handle (pageId : String) (st : SyncState) (env : CycleEnv) (b : String)
    (hb : st.lastBlockId = some b) :
    (updatePage pageId st env).1 =
        [.delete b, .appendChildren pageId [buildQuoteBlock env.stats env.iso]] ∧
    updatePage pageId st { env with deleteSucceeds := true } =
        updatePage pageId st { env with deleteSucceeds := false } ∧
    (∀ newId : String, env.appendResult = .ok (some [newId]) →
        (updatePage pageId st env).2.1 = ⟨some newId⟩) ∧
    (∀ (env1 env2 : CycleEnv) (id1 id2 : String),
        env1.appendResult = .ok (some [id1]) → env2.appendResult = .ok (some [id2]) →
        (updatePage pageId ⟨none⟩ env1).1 =
            [.appendChildren pageId [buildQuoteBlock env1.stats env1.iso]] ∧
        (updatePage pageId ⟨none⟩ env1).2.1 = ⟨some id1⟩ ∧
        (updatePage pageId ⟨some id1⟩ env2).1 =
            [.delete id1, .appendChildren pageId [buildQuoteBlock env2.stats env2.iso]] ∧
        (updatePage pageId ⟨some id1⟩ env2).2.1 = ⟨some id2⟩) := by
  refine ⟨?_, ?_, ?_, ?_⟩
  · cases henv : env.appendResult <;> simp [updatePage, hb, henv]
  · cases henv : env.appendResult <;> simp [updatePage, henv]
  · intro newId he
    simp [updatePage, he]
  · intro env1 env2 id1 id2 h1 h2
    refine ⟨?_, ?_, ?_, ?_⟩ <;> simp [updatePage, h1, h2]

/-- Witness for C1: a held handle "old" is deleted and replaced by the
freshly appended block id "new". -/
theorem c1_witness :
    (updatePage "p" ⟨some "old"⟩ ⟨[], "ts", true, .ok (some ["new"])⟩).1 =
        [.delete "old", .appendChildren "p" [buildQuoteBlock [] "ts"]] ∧
    (updatePage "p" ⟨some "old"⟩ ⟨[], "ts", true, .ok (some ["new"])⟩).2.1 = ⟨some "new"⟩ :=
  ⟨(c1_single_live_handle "p" ⟨some "old"⟩ ⟨[], "ts", true, .ok (some ["new"])⟩ "old" rfl).1,
   (c1_single_live_handle "p" ⟨some "old"⟩ ⟨[], "ts", true, .ok (some ["new"])⟩ "old"
      rfl).2.2.1 "new" rfl⟩

/-! ## C10: deletes only target ids returned by earlier appends -/

theorem runSyncs_delete_from_earlier_append (pageId : String) (envs : List CycleEnv) :
    ∀ (st : SyncState) (P : String → Prop),
      (∀ b, st.lastBlockId = some b → P b) →
      ∀ (i : ℕ) (b : String),
        NotionReq.delete b ∈ ((runSyncs pageId st envs).1.getD i []) →
        P b ∨ ∃ j, j < i ∧ b ∈ envAppendIds (envs.getD j defaultCycleEnv) := by
  induction envs with
  | nil =>
      intro st P hP i b hmem
      simp [runSyncs] at hmem
  | cons e es ih =>
      intro st P hP i b hmem
      cases i with
      | zero =>
          left
          simp only [runSyncs, List.getD_cons_zero] at hmem
          rcases hst : st.lastBlockId with _ | b0 <;>
            cases henv : e.appendResult <;>
            simp [updatePage, hst, henv] at hmem <;>
            (subst hmem; exact hP _ hst)
      | succ k =>
          have hmem' : NotionReq.delete b ∈
              ((runSyncs pageId (updatePage pageId st e).2.1 es).1.getD k []) := by
            simpa [runSyncs] using hmem
          have hstep : ∀ b', (updatePage pageId st e).2.1.lastBlockId = some b' →
              b' ∈ envAppendIds e := by
            intro b' hb'
            cases henv : e.appendResult with
            | error msg => simp [updatePage, henv] at hb'
            | ok results =>
                cases results with
                | none => simp [updatePage, henv] at hb'
                | some ids =>
                    simp only [updatePage, henv, Option.bind] at hb'
                    simpa [envAppendIds, henv] using List.mem_of_getLast?_eq_some hb'
          rcases ih (updatePage pageId st e).2.1 (fun b' => b' ∈ envAppendIds e) hstep k b hmem'
            with h | ⟨j, hj, hjmem⟩
          · exact Or.inr ⟨0, Nat.succ_pos k, by simpa using h⟩
          · exact Or.inr ⟨j + 1, Nat.succ_lt_succ hj, by simpa using hjmem⟩

/-- C10: an append response without results (or with an empty results
array) leaves the handle null, a call starting with a null handle issues
no delete before its append, and across any run every delete targets an
id returned by an earlier cycle's append response. -/
theorem c10_delete_only_appended_ids (pageId : String) :
    (∀ (st : SyncState) (env : CycleEnv),
        env.appendResult = .ok none ∨ env.appendResult = .ok (some []) →
        (updatePage pageId st env).2.1 = ⟨none⟩) ∧
    (∀ env : CycleEnv, (updatePage pageId ⟨none⟩ env).1 =
        [.appendChildren pageId [buildQuoteBlock env.stats env.iso]]) ∧
    (∀ (envs : List CycleEnv) (i : ℕ) (b : String),
        NotionReq.delete b ∈ ((runSyncs pageId ⟨none⟩ envs).1.getD i []) →
        ∃ j, j < i ∧ b ∈ envAppendIds (envs.getD j defaultCycleEnv)) := by
  refine ⟨?_, ?_, ?_⟩
  · rintro st env (he | he) <;> simp [updatePage, he]
  · intro env
    cases henv : env.appendResult <;> simp [updatePage, henv]
  · intro envs i b hmem
    rcases runSyncs_delete_from_earlier_append pageId envs ⟨none⟩ (fun _ => False)
        (by intro b' hb'; exact Option.noConfusion hb') i b hmem with h | h
    · exact absurd h not_false
    · exact h

/-- Witness for C10: a results-free append leaves the handle null, and in
a two-cycle run the delete of cycle 1 targets the id appended in
cycle 0. -/
theorem c10_witness :
    (updatePage "p" ⟨some "old"⟩ ⟨[], "ts", true, .ok none⟩).2.1 = ⟨none⟩ ∧
    ∃ j, j < 1 ∧ "x" ∈ envAppendIds
        ([(⟨[], "t0", true, .ok (some ["x"])⟩ : CycleEnv),
          ⟨[], "t1", true, .ok (some ["y"])⟩].getD j defaultCycleEnv) :=
  ⟨(c10_delete_only_appended_ids "p").1 ⟨some "old"⟩ ⟨[], "ts", true, .ok none⟩ (Or.inl rfl),
   (c10_delete_only_appended_ids "p").2.2
     [⟨[], "t0", true, .ok (some ["x"])⟩, ⟨[], "t1", true, .ok (some ["y"])⟩] 1 "x"
     (by simp [runSyncs, updatePage])⟩

/-! ## C7: startup cleanup deletes exactly the marked quote blocks -/

theorem deleteTargets_append (xs ys : List NotionReq) :
    deleteTargets (xs ++ ys) = deleteTargets xs ++ deleteTargets ys :=
  List.filterMap_append xs ys _

theorem getTargets_append (xs ys : List NotionReq) :
    getTargets (xs ++ ys) = getTargets xs ++ getTargets ys :=
  List.filterMap_append xs ys _

theorem deleteTargets_cleanupBlockReqs (b : PageChild) :
    deleteTargets (cleanupBlockReqs b) = if cleanupShouldDelete b then [b.id] else [] := by
  cases h1 : (b.type == "quote" && b.has_children) <;> cases h2 : quoteHasMarker b <;>
    simp [cleanupBlockReqs, cleanupShouldDelete, deleteTargets, h1, h2]

theorem getTargets_cleanupBlockReqs (b : PageChild) :
    getTargets (cleanupBlockReqs b) =
      if b.type == "quote" && b.has_children
      then ["/blocks/" ++ b.id ++ "/children?page_size=20"] else [] := by
  cases h1 : (b.type == "quote" && b.has_children) <;> cases h2 : quoteHasMarker b <;>
    simp [cleanupBlockReqs, getTargets, h1, h2]

theorem deleteTargets_flatMap_cleanup (l : List PageChild) :
    deleteTargets (l.flatMap cleanupBlockReqs) =
      (l.filter cleanupShouldDelete).map (fun b => b.id) := by
  induction l with
  | nil => rfl
  | cons b rest ih =>
      rw [List.flatMap_cons, deleteTargets_append, deleteTargets_cleanupBlockReqs, ih,
        List.filter_cons]
      cases h : cleanupShouldDelete b <;> simp [h]

theorem getTargets_flatMap_cleanup (l : List PageChild) :
    getTargets (l.flatMap cleanupBlockReqs) =
      (l.filter (fun b => b.type == "quote" && b.has_children)).map
        (fun b => "/blocks/" ++ b.id ++ "/children?page_size=20") := by
  induction l with
  | nil => rfl
  | cons b rest ih =>
      rw [List.flatMap_cons, getTargets_append, getTargets_cleanupBlockReqs, ih,
        List.filter_cons]
      cases h : (b.type == "quote" && b.has_children) <;> simp [h]

/-- C7: the startup cleanup fetches nested children for exactly the
quote-type children with nested children among the first 100 listed, and
deletes exactly those whose first 20 nested children include a paragraph
containing the sentinel; on a page with one marked quote it deletes that
block and only that block. -/
theorem c7_cleanup_deletes_marked_quotes (pageId : String) (page : List PageChild) :
    deleteTargets (cleanupTrace pageId page) =
      ((page.take 100).filter cleanupShouldDelete).map (fun b => b.id) ∧
    getTargets (cleanupTrace pageId page) =
      ("/blocks/" ++ pageId ++ "/children?page_size=100") ::
        ((page.take 100).filter (fun b => b.type == "quote" && b.has_children)).map
          (fun b => "/blocks/" ++ b.id ++ "/children?page_size=20") ∧
    deleteTargets (cleanupTrace "p"
        [⟨"p1", "paragraph", false, []⟩,
         ⟨"q1", "quote", true,
           [⟨"paragraph", some [⟨some ⟨some "note Managed by simple-container-monitor end"⟩⟩]⟩]⟩,
         ⟨"q2", "quote", true, [⟨"paragraph", some [⟨some ⟨some "hello"⟩⟩]⟩]⟩]) = ["q1"] := by
  refine ⟨?_, ?_, ?_⟩
  · show deleteTargets (NotionReq.get _ :: _) = _
    rw [show ∀ p rest, deleteTargets (NotionReq.get p :: rest) = deleteTargets rest
        from fun p rest => rfl]
    exact deleteTargets_flatMap_cleanup _
  · show getTargets (NotionReq.get _ :: _) = _
    rw [show ∀ p rest, getTargets (NotionReq.get p :: rest) = p :: getTargets rest
        from fun p rest => rfl]
    rw [getTargets_flatMap_cleanup]
  · decide

/-! ## C8: shape of the rendered block tree -/

theorem splitCharL_ne_nil (c : Char) (l : List Char) : splitCharL c l ≠ [] := by
  cases l with
  | nil => simp [splitCharL]
  | cons x xs =>
      cases h : splitCharL c xs with
      | nil => simp [splitCharL, h]
      | cons g gs =>
          simp only [splitCharL, h]
          split_ifs <;> simp

theorem splitCharL_append_sep (c : Char) (ys : List Char) :
    ∀ xs : List Char, c ∉ xs → splitCharL c (xs ++ c :: ys) = xs :: splitCharL c ys := by
  intro xs
  induction xs with
  | nil =>
      intro _
      simp only [List.nil_append, splitCharL]
      cases h : splitCharL c ys with
      | nil => exact absurd h (splitCharL_ne_nil c ys)
      | cons g gs => simp
  | cons x xs ih =>
      intro hx
      have hxc : ¬(x = c) := fun he => hx (by simp [he])
      have hrec := ih (fun hm => hx (List.mem_cons_of_mem _ hm))
      simp only [List.cons_append, splitCharL, List.append_eq]
      rw [hrec]
      simp [hxc]

theorem formatTimestamp_split (base frac : String) (h : '.' ∉ base.data) :
    formatTimestamp (base ++ "." ++ frac) = base ++ "Z" := by
  have hdata : (base ++ "." ++ frac).data = base.data ++ '.' :: frac.data := by
    simp [String.data_append]
  simp only [formatTimestamp, beforeFirstDot, hdata, splitCharL_append_sep _ _ _ h]

/-- C8: for every stats list (including the empty one) the block tree
appended by sync is a quote block with a bold title, an Updated line
whose timestamp drops the fractional seconds and ends in Z, a table
whose header row is Container / CPU (%) / RAM (MB) followed by exactly
one row per stat carrying the name and the decimal renderings of
cpuUsage and memoryUsage, and a trailing gray italic paragraph
containing the sentinel. -/
theorem c8_rendered_tree_shape (pageId : String) (st : SyncState) (env : CycleEnv)
    (base frac : String) (hiso : env.iso = base ++ "." ++ frac) (hdot : '.' ∉ base.data) :
    (updatePage pageId st env).1.getLast? =
        some (.appendChildren pageId [buildQuoteBlock env.stats env.iso]) ∧
    buildQuoteBlock env.stats env.iso =
      .quote [⟨⟨"Container Stats"⟩, some ⟨some true, none, none⟩⟩]
        [ .paragraph [⟨⟨"Updated: " ++ (base ++ "Z")⟩, none⟩],
          .table 3 true false (headerRow :: env.stats.map statRow),
          .paragraph [⟨⟨markerText⟩, some ⟨some false, some true, some "gray"⟩⟩] ] ∧
    (env.stats.map statRow).length = env.stats.length ∧
    (∀ (i : ℕ) (hi : i < env.stats.length),
        (env.stats.map statRow).get ⟨i, by simpa using hi⟩ =
          .table_row [[⟨⟨(env.stats.get ⟨i, hi⟩).name⟩, none⟩],
            [⟨⟨(env.stats.get ⟨i, hi⟩).cpuUsage.toDisplayString⟩, none⟩],
            [⟨⟨(env.stats.get ⟨i, hi⟩).memoryUsage.toDisplayString⟩, none⟩]]) ∧
    containsSub markerText markerText = true := by
  refine ⟨?_, ?_, by simp, ?_, by decide⟩
  · cases henv : env.appendResult <;>
      simp [updatePage, henv, List.getLast?_concat]
  · rw [buildQuoteBlock, hiso, formatTimestamp_split base frac hdot]
    rfl
  · intro i hi
    simp [statRow]

/-- Witness for C8: one stat and a concrete ISO timestamp. -/
theorem c8_witness :
    buildQuoteBlock [⟨"web", .finite 80, .finite 100⟩] "2024-05-06T07:08:09.123Z" =
      .quote [⟨⟨"Container Stats"⟩, some ⟨some true, none, none⟩⟩]
        [ .paragraph [⟨⟨"Updated: " ++ ("2024-05-06T07:08:09" ++ "Z")⟩, none⟩],
          .table 3 true false
            (headerRow :: [(⟨"web", .finite 80, .finite 100⟩ : ContainerStats)].map statRow),
          .paragraph [⟨⟨markerText⟩, some ⟨some false, some true, some "gray"⟩⟩] ] :=
  (c8_rendered_tree_shape "p" ⟨none⟩
    ⟨[⟨"web", .finite 80, .finite 100⟩], "2024-05-06T07:08:09.123Z", true, .ok none⟩
    "2024-05-06T07:08:09" "123Z" (by decide) (by decide)).2.1

/-! ## C2: ordering and pacing of the rate-limited channel -/

theorem foldr_max_le (l : List ℕ) (q : ℕ) (h : ∀ x ∈ l, x ≤ q) : l.foldr max 0 ≤ q := by
  induction l with
  | nil => exact Nat.zero_le q
  | cons a l ih =>
      simp only [List.foldr_cons]
      exact max_le (h a (by simp)) (ih (fun x hx => h x (List.mem_cons_of_mem _ hx)))

theorem foldr_max_eq (l : List ℕ) (q : ℕ) (hq : q ∈ l) (h : ∀ x ∈ l, x ≤ q) :
    l.foldr max 0 = q := by
  induction l with
  | nil => simp at hq
  | cons a l ih =>
      simp only [List.foldr_cons]
      rcases List.mem_cons.mp hq with rfl | hq'
      · exact max_eq_left (foldr_max_le l q (fun x hx => h x (List.mem_cons_of_mem _ hx)))
      · rw [ih hq' (fun x hx => h x (List.mem_cons_of_mem _ hx))]
        exact max_eq_right (h a (by simp))

theorem lastDispatchBefore_eq (hist : List ℕ) (qrt s : ℕ)
    (hb : ∀ x ∈ hist, x ≤ qrt) (hm : qrt ∈ hist ∨ (hist = [] ∧ qrt = 0)) (hs : qrt < s) :
    lastDispatchBefore hist s = qrt := by
  rcases hm with hm | ⟨h1, h2⟩
  · have hfilter : hist.filter (fun d => d < s) = hist :=
      List.filter_eq_self.mpr
        (fun x hx => decide_eq_true (lt_of_le_of_lt (hb x hx) hs))
    rw [lastDispatchBefore, hfilter]
    exact foldr_max_eq hist qrt hm hb
  · subst h1
    simp [lastDispatchBefore, h2]

theorem dispatchLoop_cons (s : ℕ) (rest hist : List ℕ) (qrt : ℕ) :
    dispatchLoop (s :: rest) hist qrt =
      (max s qrt + ((lastDispatchBefore hist s + minIntervalMs) - s)) ::
        dispatchLoop rest
          (hist ++ [max s qrt + ((lastDispatchBefore hist s + minIntervalMs) - s)])
          (max s qrt + ((lastDispatchBefore hist s + minIntervalMs) - s)) := rfl

theorem dispatchLoop_cons_eq (s : ℕ) (rest hist : List ℕ) (qrt : ℕ)
    (hb : ∀ x ∈ hist, x ≤ qrt) (hm : qrt ∈ hist ∨ (hist = [] ∧ qrt = 0)) (hs : qrt < s) :
    dispatchLoop (s :: rest) hist qrt =
      max s (qrt + minIntervalMs) ::
        dispatchLoop rest (hist ++ [max s (qrt + minIntervalMs)])
          (max s (qrt + minIntervalMs)) := by
  have hlast := lastDispatchBefore_eq hist qrt s hb hm hs
  rw [dispatchLoop_cons, hlast]
  have hd : max s qrt + ((qrt + minIntervalMs) - s) = max s (qrt + minIntervalMs) := by
    omega
  rw [hd]

theorem dispatchLoop_all_ge (subs : List ℕ) :
    ∀ (hist : List ℕ) (qrt : ℕ), ∀ d ∈ dispatchLoop subs hist qrt, qrt ≤ d := by
  induction subs with
  | nil => intro hist qrt d hd; simp [dispatchLoop] at hd
  | cons s rest ih =>
      intro hist qrt d hd
      rw [dispatchLoop_cons] at hd
      rcases List.mem_cons.mp hd with rfl | hd'
      · exact le_trans (le_max_right s qrt) (Nat.le_add_right _ _)
      · exact le_trans (le_trans (le_max_right s qrt) (Nat.le_add_right _ _)) (ih _ _ d hd')

theorem dispatchLoop_chain_le (subs : List ℕ) :
    ∀ (hist : List ℕ) (qrt : ℕ), List.Chain' (· ≤ ·) (dispatchLoop subs hist qrt) := by
  induction subs with
  | nil => intro hist qrt; simp [dispatchLoop]
  | cons s rest ih =>
      intro hist qrt
      rw [dispatchLoop_cons]
      refine List.chain'_cons'.mpr ⟨?_, ih _ _⟩
      intro y hy
      exact dispatchLoop_all_ge rest _ _ y (List.mem_of_mem_head? hy)

theorem dispatchLoop_length (subs : List ℕ) :
    ∀ (hist : List ℕ) (qrt : ℕ), (dispatchLoop subs hist qrt).length = subs.length := by
  induction subs with
  | nil => intro hist qrt; rfl
  | cons s rest ih =>
      intro hist qrt
      rw [dispatchLoop_cons]
      simp [ih]

theorem dispatchLoop_gap (subs : List ℕ) :
    ∀ (hist : List ℕ) (qrt : ℕ),
      (∀ x ∈ hist, x ≤ qrt) → (qrt ∈ hist ∨ (hist = [] ∧ qrt = 0)) →
      List.Chain' (fun p q => p.2 < q.1) (subs.zip (dispatchLoop subs hist qrt)) →
      List.Chain' (fun p q => p.2 + minIntervalMs ≤ q.2)
        (subs.zip (dispatchLoop subs hist qrt)) := by
  induction subs with
  | nil => intro hist qrt _ _ _; simp [dispatchLoop]
  | cons s1 rest ih =>
      intro hist qrt hb hm hchain
      rw [dispatchLoop_cons] at hchain ⊢
      set d1 := max s1 qrt + ((lastDispatchBefore hist s1 + minIntervalMs) - s1) with hd1
      have hq_le_d1 : qrt ≤ d1 := le_trans (le_max_right s1 qrt) (Nat.le_add_right _ _)
      have hb1 : ∀ x ∈ hist ++ [d1], x ≤ d1 := by
        intro x hx
        rcases List.mem_append.mp hx with hx' | hx'
        · exact le_trans (hb x hx') hq_le_d1
        · simp at hx'
          omega
      have hm1 : d1 ∈ hist ++ [d1] := by simp
      rw [List.zip_cons_cons] at hchain ⊢
      rcases List.chain'_cons'.mp hchain with ⟨hhead, htail⟩
      refine List.chain'_cons'.mpr ⟨?_, ih (hist ++ [d1]) d1 hb1 (Or.inl hm1) htail⟩
      cases rest with
      | nil => intro y hy; simp at hy
      | cons s2 rest2 =>
          intro y hy
          rw [dispatchLoop_cons] at hy hhead
          have hs2 : d1 < s2 := by
            refine hhead (s2,
              max s2 d1 + ((lastDispatchBefore (hist ++ [d1]) s2 + minIntervalMs) - s2)) ?_
            simp [List.zip_cons_cons]
          have hlast : lastDispatchBefore (hist ++ [d1]) s2 = d1 :=
            lastDispatchBefore_eq _ _ _ hb1 (Or.inl hm1) hs2
          rw [List.zip_cons_cons] at hy
          simp only [List.head?_cons, Option.mem_def, Option.some.injEq] at hy
          rw [← hy, hlast]
          simp only []
          omega

/-- C2 (amended): requests are dispatched in submission order with
nondecreasing dispatch times, and when every request is submitted
strictly after the previous request's dispatch, consecutive dispatches
are at least the 350ms minimum interval apart. -/
theorem c2_amended_order_and_gaps (subs : List ℕ) :
    (dispatchTimes subs).length = subs.length ∧
    List.Chain' (· ≤ ·) (dispatchTimes subs) ∧
    (List.Chain' (fun p q => p.2 < q.1) (subs.zip (dispatchTimes subs)) →
      List.Chain' (fun p q => p.2 + minIntervalMs ≤ q.2) (subs.zip (dispatchTimes subs))) :=
  ⟨dispatchLoop_length subs [] 0, dispatchLoop_chain_le subs [] 0,
    fun h => dispatchLoop_gap subs [] 0 (by simp) (Or.inr ⟨rfl, rfl⟩) h⟩

/-- Counterexample to C2 as stated: two requests submitted at the same
millisecond (before the first is dispatched) both compute a zero wait
from the same stale timestamp and are dispatched 0ms apart, not 350ms. -/
theorem c2_counterexample :
    dispatchTimes [1000, 1000] = [1000, 1000] ∧
    ¬ List.Chain' (fun a b => a + minIntervalMs ≤ b) (dispatchTimes [1000, 1000]) := by
  constructor
  · decide
  · rw [show dispatchTimes [1000, 1000] = [1000, 1000] from by decide]
    intro h
    have hle := (List.chain'_cons.mp h).1
    simp [minIntervalMs] at hle

/-- Witness for C2: sequentially submitted requests respect the minimum
interval. -/
theorem c2_witness :
    List.Chain' (fun p q => p.2 + minIntervalMs ≤ q.2)
      ([1000, 1400].zip (dispatchTimes [1000, 1400])) :=
  (c2_amended_order_and_gaps [1000, 1400]).2.2 (by
    rw [show dispatchTimes [1000, 1400] = [1000, 1400] from by decide]
    simp [List.zip_cons_cons, List.chain'_cons])

/-! ## C3: 429 retry loop and hard errors -/

/-- C3 (amended): a 429 response whose body parses re-issues the identical
request after waiting Retry-After seconds, where an absent, unparsable,
or zero Retry-After counts as 1 second, repeating until success or a
non-429 outcome; any other status of at least 400 fails immediately with
the status and body; a body that fails to parse rejects the call. -/
theorem c3_retry_and_error_handling :
    (∀ (r : ApiResponse) (rest : List ApiResponse) (b : String),
        r.status = 429 → r.body = some b →
        processResponses (r :: rest) =
          (processResponses rest).map
            (fun o => (o.1, retryAfterSeconds r.retryAfter * 1000 + o.2.1, o.2.2 + 1))) ∧
    (∀ (r : ApiResponse) (rest : List ApiResponse) (b : String),
        r.body = some b → r.status ≠ 429 → 400 ≤ r.status →
        processResponses (r :: rest) = some (.apiError r.status b, 0, 1)) ∧
    (∀ (r : ApiResponse) (rest : List ApiResponse) (b : String),
        r.body = some b → r.status ≠ 429 → r.status < 400 →
        processResponses (r :: rest) = some (.ok b, 0, 1)) ∧
    (∀ (r : ApiResponse) (rest : List ApiResponse),
        r.body = none → processResponses (r :: rest) = some (.parseError, 0, 1)) ∧
    processResponses [⟨429, some 2, some "limit"⟩, ⟨200, none, some "done"⟩] =
      some (.ok "done", 2000, 2) := by
  refine ⟨?_, ?_, ?_, ?_, by decide⟩
  · intro r rest b h429 hb
    simp only [processResponses, hb, h429, if_pos rfl]
    cases hrest : processResponses rest with
    | none => simp
    | some o =>
        obtain ⟨res, w, n⟩ := o
        simp
  · intro r rest b hb hne h400
    simp [processResponses, hb, hne, h400]
  · intro r rest b hb hne hlt
    have hnle : ¬(400 ≤ r.status) := by omega
    simp [processResponses, hb, hne, hnle]
  · intro r rest hb
    simp [processResponses, hb]

/-- Counterexample to C3 as stated: a 429 with Retry-After 0 should wait
0 seconds per the claim, but parseInt(...) || 1 treats 0 as falsy and
the code waits 1000ms before re-issuing. -/
theorem c3_counterexample :
    processResponses [⟨429, some 0, some "limit"⟩, ⟨200, none, some "done"⟩] =
      some (.ok "done", 1000, 2) ∧ (1000 : ℕ) ≠ 0 * 1000 := by
  constructor
  · decide
  · decide

/-- Witness for C3: the spec's Retry-After 2 scenario re-issues the
request after a 2000ms wait. -/
theorem c3_witness :
    processResponses [⟨429, some 2, some "limit"⟩, ⟨200, none, some "done"⟩] =
      (processResponses [⟨200, none, some "done"⟩]).map
        (fun o => (o.1, retryAfterSeconds (some 2) * 1000 + o.2.1, o.2.2 + 1)) :=
  c3_retry_and_error_handling.1 ⟨429, some 2, some "limit"⟩ [⟨200, none, some "done"⟩]
    "limit" rfl rfl

/-! ## C4: startup configuration checks -/

/-- C4 (amended): a missing or empty NOTION_TOKEN makes the process log an
error and exit with status 1 before any scheduling or Notion request;
with a token present but NOTION_PAGE_ID missing, the constructor throws,
main catches and logs the error, no scheduling begins and no Notion
request is attempted, but the process exits with status 0. -/
theorem c4_startup_checks (token pageId : Option String) :
    (envTruthy token = false →
        startup token pageId = .exitNonZero 1 ∧
        startupExitCode (startup token pageId) = some 1 ∧
        startupLogsError (startup token pageId) = true ∧
        startupBeginsScheduling (startup token pageId) = false ∧
        startupAttemptsNotionRequest (startup token pageId) = false) ∧
    (envTruthy token = true → envTruthy pageId = false →
        startup token pageId = .errorLoggedExitZero ∧
        startupExitCode (startup token pageId) = some 0 ∧
        startupLogsError (startup token pageId) = true ∧
        startupBeginsScheduling (startup token pageId) = false ∧
        startupAttemptsNotionRequest (startup token pageId) = false) := by
  constructor
  · intro h
    simp [startup, h, startupExitCode, startupLogsError, startupBeginsScheduling,
      startupAttemptsNotionRequest]
  · intro ht hp
    simp [startup, ht, hp, startupExitCode, startupLogsError, startupBeginsScheduling,
      startupAttemptsNotionRequest]

/-- Counterexample to C4 as stated: with the token set and the page id
missing, the process logs and stops but its exit status is 0, not
non-zero. -/
theorem c4_counterexample :
    startup (some "tok") none = .errorLoggedExitZero ∧
    startupExitCode (startup (some "tok") none) = some 0 := by
  decide

/-- Witness for C4: a missing token exits with status 1 before any
scheduling or request. -/
theorem c4_witness :
    startup none (some "page") = .exitNonZero 1 ∧
    startupExitCode (startup none (some "page")) = some 1 ∧
    startupLogsError (startup none (some "page")) = true ∧
    startupBeginsScheduling (startup none (some "page")) = false ∧
    startupAttemptsNotionRequest (startup none (some "page")) = false :=
  (c4_startup_checks none (some "page")).1 rfl
